import Mathlib

/-!
Verification of the rioc layer-chain and task-supervisor core.

The Rust source (src/rioc/src/layer.rs, src/rioc/src/task.rs) is shallowly
embedded below.  The pointer graph of `Layer` nodes (Arc/Weak links) is
rendered as an arena: each layer lives at an index (its order of addition),
`lo_layer` holds the index of the strong downward neighbour, and `up_layer`
holds a `Weak` value that is either `live j` (upgrade succeeds, yielding
index `j`) or `expired` (upgrade fails).  The possibly non-terminating
mutual recursion of `Layer::handle_inbound` / `Layer::handle_outbound`
is made total with a fuel parameter; `none` denotes divergence (fuel
exhausted), `some r` the Rust function's `Result` value `r`.
-/

namespace Rioc

/-- `ChainContext` from layer.rs: a `HashMap<String,String>` rendered as an
association list (ordering is irrelevant to every claim). -/
structure ChainContext where
  data : List (String × String)
  deriving DecidableEq

/-- `PayLoad` from layer.rs. -/
structure PayLoad where
  data : Option String
  ctx : Option ChainContext
  deriving DecidableEq

/-- `Direction` from layer.rs. -/
inductive Direction where
  | Inbound
  | Outbound
  deriving DecidableEq

/-- `LayerResult` from layer.rs. -/
structure LayerResult where
  direction : Direction
  data : Option PayLoad
  deriving DecidableEq

/-- A `ProtocolAware` handler (layer.rs): a closure from an optional payload
to `Result<LayerResult, String>`. -/
def ProtocolAware : Type := Option PayLoad → Except String LayerResult

/-- A weak reference as seen at upgrade time: `live j` upgrades to the node
at index `j`, `expired` fails to upgrade. -/
inductive Weak (α : Type) where
  | live (a : α)
  | expired
  deriving DecidableEq

/-- `Layer` from layer.rs.  Neighbour links are arena indices:
`lo_layer` is the strong `Option<SharedLayer>` link, `up_layer` the
`Option<WeakLayer>` link. -/
structure Layer where
  handle_inbound : ProtocolAware
  handle_outbound : ProtocolAware
  lo_layer : Option Nat
  up_layer : Option (Weak Nat)

/-- Stands in for dereferencing a dangling arena index.  An `Arc`
dereference cannot fail in the source, and no chain built by `add_layer`
ever links out of range, so this default is never reached in the theorems
below. -/
def danglingLayer : Layer :=
  { handle_inbound := fun _ => Except.error "dangling"
    handle_outbound := fun _ => Except.error "dangling"
    lo_layer := none
    up_layer := none }

mutual

/-- `Layer::handle_inbound` (layer.rs lines 72-104), with fuel.
Runs the layer's own inbound handler; a handler failure is replaced by the
fixed message `failed to handle inbound request`; then routes by the
returned direction: `Inbound` goes to the upgraded upper neighbour's
`handle_inbound` (an expired weak link yields the same fixed message),
`Outbound` goes to the lower neighbour's `handle_outbound`; a missing
neighbour makes the handler's direct result the final outcome. -/
def handleInbound (fuel : Nat) (env : Nat → Layer) (i : Nat)
    (req : Option PayLoad) : Option (Except String LayerResult) :=
  match fuel with
  | 0 => none
  | f + 1 =>
    match (env i).handle_inbound req with
    | Except.error _ => some (Except.error "failed to handle inbound request")
    | Except.ok result =>
      match result.direction with
      | Direction.Inbound =>
        match (env i).up_layer with
        | some (Weak.live j) => handleInbound f env j result.data
        | some Weak.expired =>
          some (Except.error "failed to handle inbound request")
        | none => some (Except.ok result)
      | Direction.Outbound =>
        match (env i).lo_layer with
        | some j => handleOutbound f env j result.data
        | none => some (Except.ok result)

/-- `Layer::handle_outbound` (layer.rs lines 106-138), with fuel: the
mirror of `handleInbound`, starting from the outbound handler (whose
failure is replaced by `failed to handle outbound request`); note that the
expired-weak-link branch returns `failed to handle inbound request`, as in
the source. -/
def handleOutbound (fuel : Nat) (env : Nat → Layer) (i : Nat)
    (req : Option PayLoad) : Option (Except String LayerResult) :=
  match fuel with
  | 0 => none
  | f + 1 =>
    match (env i).handle_outbound req with
    | Except.error _ => some (Except.error "failed to handle outbound request")
    | Except.ok result =>
      match result.direction with
      | Direction.Inbound =>
        match (env i).up_layer with
        | some (Weak.live j) => handleInbound f env j result.data
        | some Weak.expired =>
          some (Except.error "failed to handle inbound request")
        | none => some (Except.ok result)
      | Direction.Outbound =>
        match (env i).lo_layer with
        | some j => handleOutbound f env j result.data
        | none => some (Except.ok result)

end

/-- `LayerBuilder` from layer.rs (the `hanlde_inbound` field keeps the
source's spelling). -/
structure LayerBuilder where
  hanlde_inbound : Option ProtocolAware
  handle_outbound : Option ProtocolAware

/-- `LayerBuilder::new`. -/
def LayerBuilder.new : LayerBuilder :=
  { hanlde_inbound := none, handle_outbound := none }

/-- `LayerBuilder::with_inbound_fn`. -/
def LayerBuilder.with_inbound_fn (b : LayerBuilder) (f : ProtocolAware) :
    LayerBuilder :=
  { b with hanlde_inbound := some f }

/-- `LayerBuilder::with_outbound_fn`. -/
def LayerBuilder.with_outbound_fn (b : LayerBuilder) (f : ProtocolAware) :
    LayerBuilder :=
  { b with handle_outbound := some f }

/-- `LayerBuilder::build` (layer.rs lines 172-181): `ok_or` on each
handler slot, then a fresh unlinked layer. -/
def LayerBuilder.build (b : LayerBuilder) : Except String Layer :=
  match b.hanlde_inbound with
  | none => Except.error "inbound handler not set"
  | some inb =>
    match b.handle_outbound with
    | none => Except.error "outbound handler not set"
    | some outb =>
      Except.ok { handle_inbound := inb, handle_outbound := outb,
                  up_layer := none, lo_layer := none }

/-- Replace the element at an index, leaving the list unchanged when the
index is out of range (the arena rendering of mutating through a
`SharedLayer`). -/
def modifyAt (f : Layer → Layer) : Nat → List Layer → List Layer
  | _, [] => []
  | 0, a :: as => f a :: as
  | n + 1, a :: as => a :: modifyAt f n as

/-- `LayerChain` from layer.rs, with the arena of nodes made explicit:
`nodes` lists every layer ever added (index = order of addition), and
`head` / `tail` are the chain's two `Option<SharedLayer>` fields as
indices into that arena. -/
structure LayerChain where
  nodes : List Layer
  head : Option Nat
  tail : Option Nat

/-- `LayerChain::new`. -/
def LayerChain.new : LayerChain :=
  { nodes := [], head := none, tail := none }

/-- `LayerChain::add_layer` (layer.rs lines 197-214).  With a tail `t`:
the old tail's `up_layer` becomes a live weak link to the new node and the
new node's `lo_layer` becomes `t` (its `up_layer` is left as given, as in
the source); without a tail: the node's links are cleared and it becomes
both head and tail. -/
def LayerChain.add_layer (c : LayerChain) (layer : Layer) : LayerChain :=
  match c.tail with
  | some t =>
    { nodes :=
        modifyAt (fun n => { n with up_layer := some (Weak.live c.nodes.length) })
          t c.nodes ++ [{ layer with lo_layer := some t }]
      head := c.head
      tail := some c.nodes.length }
  | none =>
    { nodes := c.nodes ++ [{ layer with lo_layer := none, up_layer := none }]
      head := some c.nodes.length
      tail := some c.nodes.length }

/-- The arena as a total index-to-layer function (an `Arc` dereference
cannot fail; `danglingLayer` is never reached for chains built by
`add_layer`). -/
def envOf (c : LayerChain) : Nat → Layer :=
  fun i => c.nodes.getD i danglingLayer

/-- `LayerChain::handle_inbound` (layer.rs lines 224-232). -/
def LayerChain.handle_inbound (c : LayerChain) (fuel : Nat)
    (req : Option PayLoad) : Option (Except String LayerResult) :=
  match c.head with
  | none => some (Except.error "No layers in the chain")
  | some h => handleInbound fuel (envOf c) h req

/-- `LayerChain::handle_outbound` (layer.rs lines 234-241). -/
def LayerChain.handle_outbound (c : LayerChain) (fuel : Nat)
    (req : Option PayLoad) : Option (Except String LayerResult) :=
  match c.tail with
  | none => some (Except.error "No layers in the chain")
  | some t => handleOutbound fuel (envOf c) t req

/-- Adding a list of layers in order (left fold over `add_layer`). -/
def addAll (c : LayerChain) (ls : List Layer) : LayerChain :=
  ls.foldl LayerChain.add_layer c

/-- A layer's two handlers, used to track layer identity across the link
mutations performed by `add_layer`. -/
def handlerPair (l : Layer) : ProtocolAware × ProtocolAware :=
  (l.handle_inbound, l.handle_outbound)

/-- `TaskEvent` from task.rs (`Progress` carries a `(u8, u32)` pair,
rendered as naturals — no arithmetic is ever done on it). -/
inductive TaskEvent (T E : Type) where
  | Data (t : T)
  | Progress (p : Nat × Nat)
  | Done
  | Cancelled
  | Error (e : E)
  | Panic (s : String)
  deriving DecidableEq

/-- Whether an event is one of the four terminal outcomes
Done / Cancelled / Error / Panic. -/
def isTerminal {T E : Type} : TaskEvent T E → Bool
  | TaskEvent.Done => true
  | TaskEvent.Cancelled => true
  | TaskEvent.Error _ => true
  | TaskEvent.Panic _ => true
  | TaskEvent.Data _ => false
  | TaskEvent.Progress _ => false

/-- Observable behaviour of one run of a task body closure: the events it
sends through its event producer, in order, and whether it ends by
panicking instead of returning normally. -/
structure TaskBody (T E : Type) where
  events : List (TaskEvent T E)
  panics : Bool

/-- The coroutine spawned by `JobTask::new` (task.rs lines 45-67), as the
list of events it puts on the event channel: if the cancellation flag is
already set it emits `Cancelled` and exits without running the body;
otherwise it runs the body inside `catch_unwind` and appends `Done` on a
normal return or `Panic("panic")` when the body panicked (the source
formats the fixed description `"panic"`). -/
def runUnit {T E : Type} (cancelledAtStart : Bool) (body : TaskBody T E) :
    List (TaskEvent T E) :=
  if cancelledAtStart then [TaskEvent.Cancelled]
  else
    body.events ++
      [if body.panics then TaskEvent.Panic "panic" else TaskEvent.Done]

/-- The state shared (through `Arc`s) by every clone of a `JobTask`: the
contents of the `is_cancelled : AtomicBool` cell and whether the spawned
coroutine is still scheduled. -/
structure TaskWorld where
  is_cancelled : Bool
  unitAlive : Bool

/-- The per-clone state of a `JobTask` (task.rs lines 21-28): the
`handle : Option<Arc<JoinHandle<()>>>` slot, the only field a clone does
not share with its original through an `Arc` (each clone has its own
`Option` slot, cloned from the original's). -/
structure JobTask where
  handle : Option Unit

/-- `JobTask::cancel` (task.rs lines 79-85) as explicit state passing:
stores `true` into the shared flag, takes the handle out of its slot and,
when one was held, forcibly cancels the coroutine.  Returns the new local
state, the new shared state, and whether forced termination was invoked. -/
def JobTask.cancel (j : JobTask) (w : TaskWorld) :
    JobTask × TaskWorld × Bool :=
  ({ handle := none },
   { is_cancelled := true,
     unitAlive := if j.handle.isSome then false else w.unitAlive },
   j.handle.isSome)

/-- `Drop for JobTask` (task.rs lines 110-112): dropping calls
`self.cancel()`. -/
def JobTask.drop (j : JobTask) (w : TaskWorld) : JobTask × TaskWorld × Bool :=
  j.cancel w

/-- The derived `Clone for JobTask`: every `Arc` field is shared with the
original (so the clone sees the same `TaskWorld`), and the `handle` slot
is copied. -/
def JobTask.clone (j : JobTask) : JobTask :=
  { handle := j.handle }

/-- The error message of a dispatch outcome, when it is one. -/
def errOf : Option (Except String LayerResult) → Option String
  | some (Except.error s) => some s
  | _ => none

/-- The payload string of a successful dispatch outcome, when there is
one; used to observe which handler produced the final result. -/
def tagOf : Option (Except String LayerResult) → Option String
  | some (Except.ok r) =>
    match r.data with
    | some p => p.data
    | none => none
  | _ => none

/-- The error message of a `LayerBuilder::build` outcome, when it is one. -/
def buildErr : Except String Layer → Option String
  | Except.error s => some s
  | Except.ok _ => none

/-- A concrete unlinked layer (as `LayerBuilder::build` produces) whose
handlers succeed with direction `Outbound` and a payload carrying `tag`,
so the final outcome identifies which layer's handler ran. -/
def tagLayer (tag : String) : Layer :=
  { handle_inbound := fun _ =>
      Except.ok { direction := Direction.Outbound
                  data := some { data := some tag, ctx := none } }
    handle_outbound := fun _ =>
      Except.ok { direction := Direction.Outbound
                  data := some { data := some tag, ctx := none } }
    lo_layer := none
    up_layer := none }

/-- A concrete layer whose handlers succeed with direction `Inbound` and
payload `"x"`, linked upward (live) to index 1. -/
def upLayerA : Layer :=
  { handle_inbound := fun _ =>
      Except.ok { direction := Direction.Inbound
                  data := some { data := some "x", ctx := none } }
    handle_outbound := fun _ =>
      Except.ok { direction := Direction.Inbound
                  data := some { data := some "x", ctx := none } }
    lo_layer := none
    up_layer := some (Weak.live 1) }

/-- A concrete boundary layer: handlers succeed with direction `Outbound`
and payload `"top"`, no neighbours. -/
def topLayerB : Layer :=
  { handle_inbound := fun _ =>
      Except.ok { direction := Direction.Outbound
                  data := some { data := some "top", ctx := none } }
    handle_outbound := fun _ =>
      Except.ok { direction := Direction.Outbound
                  data := some { data := some "top", ctx := none } }
    lo_layer := none
    up_layer := none }

/-- A two-node arena: `upLayerA` at index 0 routing up to `topLayerB` at
index 1. -/
def envTwo : Nat → Layer :=
  fun n => if n = 0 then upLayerA else topLayerB

/-- An arena whose every node has handlers that fail with message
`"boom"`. -/
def envBoom : Nat → Layer :=
  fun _ =>
    { handle_inbound := fun _ => Except.error "boom"
      handle_outbound := fun _ => Except.error "boom"
      lo_layer := none
      up_layer := none }

/-- An arena whose every node has succeeding `Inbound`-directed handlers
but an expired upward weak link. -/
def envExpired : Nat → Layer :=
  fun _ =>
    { handle_inbound := fun _ =>
        Except.ok { direction := Direction.Inbound, data := none }
      handle_outbound := fun _ =>
        Except.ok { direction := Direction.Inbound, data := none }
      lo_layer := none
      up_layer := some Weak.expired }

/-- The link structure `add_layer` maintains: either the chain is empty
with null head and tail, or head is index 0, tail is the last index, the
node at `i` points down to `i - 1` (none at the head) and up, through a
live weak link, to `i + 1` (none at the tail). -/
def ChainWf (c : LayerChain) : Prop :=
  (c.nodes = [] ∧ c.head = none ∧ c.tail = none) ∨
  (c.nodes ≠ [] ∧ c.head = some 0 ∧ c.tail = some (c.nodes.length - 1) ∧
    (∀ i, i < c.nodes.length →
      (c.nodes[i]?).map Layer.lo_layer =
        some (if i = 0 then none else some (i - 1))) ∧
    (∀ i, i < c.nodes.length →
      (c.nodes[i]?).map Layer.up_layer =
        some (if i = c.nodes.length - 1 then none
              else some (Weak.live (i + 1)))))

theorem modifyAt_length (f : Layer → Layer) (n : Nat) (l : List Layer) :
    (modifyAt f n l).length = l.length := by
  induction l generalizing n with
  | nil => cases n <;> rfl
  | cons a as ih =>
    cases n with
    | zero => simp [modifyAt]
    | succ m => simp [modifyAt, ih]

theorem getElem?_modifyAt (f : Layer → Layer) (n : Nat) (l : List Layer)
    (i : Nat) :
    (modifyAt f n l)[i]? = if i = n then (l[i]?).map f else l[i]? := by
  induction l generalizing n i with
  | nil => simp [modifyAt]
  | cons a as ih =>
    cases n with
    | zero =>
      cases i with
      | zero => simp [modifyAt]
      | succ j => simp [modifyAt]
    | succ m =>
      cases i with
      | zero => simp [modifyAt]
      | succ j =>
        simp only [modifyAt, List.getElem?_cons_succ, ih]
        by_cases hj : j = m <;> simp [hj]

theorem add_layer_length (c : LayerChain) (l : Layer) :
    (c.add_layer l).nodes.length = c.nodes.length + 1 := by
  cases hc : c.tail <;>
    simp [LayerChain.add_layer, hc, modifyAt_length]

theorem add_layer_head (c : LayerChain) (l : Layer) (h : c.tail.isSome = true) :
    (c.add_layer l).head = c.head := by
  cases hc : c.tail with
  | none => rw [hc] at h; cases h
  | some t => simp [LayerChain.add_layer, hc]

theorem add_layer_handlers (c : LayerChain) (l : Layer) (i : Nat) :
    ((c.add_layer l).nodes[i]?).map handlerPair =
      if i < c.nodes.length then (c.nodes[i]?).map handlerPair
      else if i = c.nodes.length then some (handlerPair l)
      else none := by
  cases hc : c.tail with
  | none =>
    simp only [LayerChain.add_layer, hc]
    by_cases h : i < c.nodes.length
    · rw [List.getElem?_append_left h, if_pos h]
    · rw [List.getElem?_append_right (Nat.le_of_not_lt h), if_neg h]
      by_cases h2 : i = c.nodes.length
      · subst h2
        simp [handlerPair]
      · have h3 : 1 ≤ i - c.nodes.length := by omega
        rw [if_neg h2]
        rcases Nat.exists_eq_add_of_le h3 with ⟨k, hk⟩
        rw [hk]
        simp
  | some t =>
    simp only [LayerChain.add_layer, hc]
    by_cases h : i < c.nodes.length
    · have hlen : i < (modifyAt
        (fun n => { n with up_layer := some (Weak.live c.nodes.length) })
        t c.nodes).length := by rw [modifyAt_length]; exact h
      rw [List.getElem?_append_left hlen, if_pos h, getElem?_modifyAt]
      by_cases ht : i = t
      · rw [if_pos ht]
        rcases hx : c.nodes[i]? with _ | x
        · simp [hx]
        · simp [hx, handlerPair]
      · rw [if_neg ht]
    · have hlen : (modifyAt
        (fun n => { n with up_layer := some (Weak.live c.nodes.length) })
        t c.nodes).length ≤ i := by
        rw [modifyAt_length]; exact Nat.le_of_not_lt h
      rw [List.getElem?_append_right hlen, if_neg h, modifyAt_length]
      by_cases h2 : i = c.nodes.length
      · subst h2
        simp [handlerPair]
      · have h3 : 1 ≤ i - c.nodes.length := by omega
        rw [if_neg h2]
        rcases Nat.exists_eq_add_of_le h3 with ⟨k, hk⟩
        rw [hk]
        simp

theorem add_layer_nodes_of_tail (c : LayerChain) (l : Layer) (t : Nat)
    (h : c.tail = some t) :
    (c.add_layer l).nodes =
      modifyAt (fun n => { n with up_layer := some (Weak.live c.nodes.length) })
        t c.nodes ++ [{ l with lo_layer := some t }] := by
  simp [LayerChain.add_layer, h]

theorem add_layer_tail_of_tail (c : LayerChain) (l : Layer) (t : Nat)
    (h : c.tail = some t) :
    (c.add_layer l).tail = some c.nodes.length := by
  simp [LayerChain.add_layer, h]

theorem add_layer_nodes_of_none (c : LayerChain) (l : Layer)
    (h : c.tail = none) :
    (c.add_layer l).nodes =
      c.nodes ++ [{ l with lo_layer := none, up_layer := none }] := by
  simp [LayerChain.add_layer, h]

theorem add_layer_head_of_none (c : LayerChain) (l : Layer)
    (h : c.tail = none) :
    (c.add_layer l).head = some c.nodes.length := by
  simp [LayerChain.add_layer, h]

theorem add_layer_tail_of_none (c : LayerChain) (l : Layer)
    (h : c.tail = none) :
    (c.add_layer l).tail = some c.nodes.length := by
  simp [LayerChain.add_layer, h]

theorem chainWf_new : ChainWf LayerChain.new :=
  Or.inl ⟨rfl, rfl, rfl⟩

theorem chainWf_add (c : LayerChain) (l : Layer) (hwf : ChainWf c)
    (hup : l.up_layer = none) : ChainWf (c.add_layer l) := by
  rcases hwf with ⟨hn, hh, ht⟩ | ⟨hne, hh, ht, hlo, hu⟩
  · refine Or.inr ⟨?_, ?_, ?_, ?_, ?_⟩
    · rw [add_layer_nodes_of_none c l ht, hn]
      simp
    · rw [add_layer_head_of_none c l ht, hn]
      rfl
    · rw [add_layer_tail_of_none c l ht, add_layer_nodes_of_none c l ht, hn]
      rfl
    · rw [add_layer_nodes_of_none c l ht, hn]
      intro i hi
      simp only [List.nil_append, List.length_singleton] at hi
      interval_cases i
      simp
    · rw [add_layer_nodes_of_none c l ht, hn]
      intro i hi
      simp only [List.nil_append, List.length_singleton] at hi
      interval_cases i
      simp
  · have hlen : 0 < c.nodes.length := List.length_pos.mpr hne
    have hMlen : (modifyAt
        (fun n => { n with up_layer := some (Weak.live c.nodes.length) })
        (c.nodes.length - 1) c.nodes).length = c.nodes.length :=
      modifyAt_length _ _ _
    have hL : (modifyAt
        (fun n => { n with up_layer := some (Weak.live c.nodes.length) })
        (c.nodes.length - 1) c.nodes ++
        [{ l with lo_layer := some (c.nodes.length - 1) }]).length =
        c.nodes.length + 1 := by
      simp [hMlen]
    refine Or.inr ⟨?_, ?_, ?_, ?_, ?_⟩
    · rw [add_layer_nodes_of_tail c l _ ht]
      intro habs
      rw [habs] at hL
      simp only [List.length_nil] at hL
      omega
    · rw [add_layer_head c l (by rw [ht]; rfl)]
      exact hh
    · rw [add_layer_tail_of_tail c l _ ht, add_layer_nodes_of_tail c l _ ht,
        hL]
      simp
    · intro i hi
      rw [add_layer_nodes_of_tail c l _ ht] at hi ⊢
      rw [hL] at hi
      by_cases h : i < c.nodes.length
      · have hlen2 : i < (modifyAt
          (fun n => { n with up_layer := some (Weak.live c.nodes.length) })
          (c.nodes.length - 1) c.nodes).length := by rw [hMlen]; exact h
        rw [List.getElem?_append_left hlen2, getElem?_modifyAt]
        have hbase := hlo i h
        by_cases ht2 : i = c.nodes.length - 1
        · rw [if_pos ht2]
          rcases hx : c.nodes[i]? with _ | x
          · rw [hx] at hbase
            cases hbase
          · rw [hx] at hbase
            simpa using hbase
        · rw [if_neg ht2]
          exact hbase
      · have hieq : i = c.nodes.length := by omega
        subst hieq
        have hlen2 : (modifyAt
          (fun n => { n with up_layer := some (Weak.live c.nodes.length) })
          (c.nodes.length - 1) c.nodes).length ≤ c.nodes.length := by
          rw [hMlen]
        rw [List.getElem?_append_right hlen2, hMlen]
        have h0 : c.nodes.length ≠ 0 := by omega
        simp [h0]
    · intro i hi
      rw [add_layer_nodes_of_tail c l _ ht] at hi ⊢
      rw [hL] at hi
      simp only [hL, Nat.add_sub_cancel]
      by_cases h : i < c.nodes.length
      · have hlen2 : i < (modifyAt
          (fun n => { n with up_layer := some (Weak.live c.nodes.length) })
          (c.nodes.length - 1) c.nodes).length := by rw [hMlen]; exact h
        rw [List.getElem?_append_left hlen2, getElem?_modifyAt]
        have hbase := hu i h
        by_cases ht2 : i = c.nodes.length - 1
        · rw [if_pos ht2]
          rcases hx : c.nodes[i]? with _ | x
          · rw [hx] at hbase
            cases hbase
          · have hne2 : i ≠ c.nodes.length := by omega
            have hsucc : i + 1 = c.nodes.length := by omega
            simp [hne2, hsucc]
        · rw [if_neg ht2]
          have hne2 : i ≠ c.nodes.length := by omega
          rw [hbase]
          simp [ht2, hne2]
      · have hieq : i = c.nodes.length := by omega
        subst hieq
        have hlen2 : (modifyAt
          (fun n => { n with up_layer := some (Weak.live c.nodes.length) })
          (c.nodes.length - 1) c.nodes).length ≤ c.nodes.length := by
          rw [hMlen]
        rw [List.getElem?_append_right hlen2, hMlen]
        simp [hup]

theorem addAll_cons (c : LayerChain) (l : Layer) (ls : List Layer) :
    addAll c (l :: ls) = addAll (c.add_layer l) ls := rfl

theorem addAll_length (c : LayerChain) (ls : List Layer) :
    (addAll c ls).nodes.length = c.nodes.length + ls.length := by
  induction ls generalizing c with
  | nil => simp [addAll]
  | cons l ls ih =>
    rw [addAll_cons, ih, add_layer_length]
    simp only [List.length_cons]
    omega

theorem addAll_wf (ls : List Layer) (c : LayerChain) (hwf : ChainWf c)
    (h : ∀ l ∈ ls, l.up_layer = none) : ChainWf (addAll c ls) := by
  induction ls generalizing c with
  | nil => exact hwf
  | cons l ls ih =>
    rw [addAll_cons]
    exact ih (c.add_layer l)
      (chainWf_add c l hwf (h l (List.mem_cons_self l ls)))
      (fun x hx => h x (List.mem_cons_of_mem l hx))

theorem addAll_handlers (ls : List Layer) (c : LayerChain) (i : Nat) :
    ((addAll c ls).nodes[i]?).map handlerPair =
      if i < c.nodes.length then (c.nodes[i]?).map handlerPair
      else (ls[i - c.nodes.length]?).map handlerPair := by
  induction ls generalizing c with
  | nil =>
    by_cases h : i < c.nodes.length
    · simp [addAll, h]
    · rw [if_neg h]
      simp only [addAll, List.foldl_nil]
      rw [List.getElem?_eq_none (Nat.le_of_not_lt h)]
      simp
  | cons l ls ih =>
    rw [addAll_cons, ih, add_layer_length]
    by_cases h : i < c.nodes.length
    · have h1 : i < c.nodes.length + 1 := by omega
      rw [if_pos h1, if_pos h, add_layer_handlers, if_pos h]
    · by_cases h2 : i = c.nodes.length
      · subst h2
        have h1 : c.nodes.length < c.nodes.length + 1 := by omega
        rw [if_pos h1, if_neg h, add_layer_handlers, if_neg h]
        simp
      · have h1 : ¬ i < c.nodes.length + 1 := by omega
        rw [if_neg h1, if_neg h]
        have h5 : i - c.nodes.length = (i - (c.nodes.length + 1)) + 1 := by
          omega
        rw [h5, List.getElem?_cons_succ]

/-- Claim C8: for every payload and any fuel, `handle_inbound` and
`handle_outbound` on an empty chain (no layers added) both fail with the
empty-chain error `No layers in the chain`; the empty chain holds no
layers at all, so no handler can be invoked. -/
theorem c8_empty_chain_error (fuel : Nat) (req : Option PayLoad) :
    LayerChain.new.handle_inbound fuel req =
      some (Except.error "No layers in the chain") ∧
    LayerChain.new.handle_outbound fuel req =
      some (Except.error "No layers in the chain") ∧
    LayerChain.new.nodes = [] :=
  ⟨rfl, rfl, rfl⟩

/-- Claim C6: `cancel` stores `true` into the cancellation flag, releases
the handle slot, and forcibly terminates the unit exactly when the handle
was still held; a second `cancel` changes nothing and forces nothing
(idempotent), and `Drop` runs exactly the same cancellation path, so
dropping the supervisor without calling `cancel` leaves the flag
observably `true`. -/
theorem c6_cancel_idempotent_drop (j : JobTask) (w : TaskWorld) :
    (j.cancel w).2.1.is_cancelled = true ∧
    (j.cancel w).1.handle = none ∧
    (j.cancel w).2.2 = j.handle.isSome ∧
    (j.cancel w).1.cancel (j.cancel w).2.1 =
      ((j.cancel w).1, (j.cancel w).2.1, false) ∧
    j.drop w = j.cancel w ∧
    (j.drop w).2.1.is_cancelled = true :=
  ⟨rfl, rfl, rfl, rfl, rfl, rfl⟩

/-- Claim C10: the derived `Clone` for `JobTask` copies the handle slot
and shares every `Arc`-held cell — in particular the cancellation flag
and the coroutine, which live in the shared `TaskWorld`; `Drop`
unconditionally calls `cancel`, so dropping any single clone stores
`true` into the shared flag (observed by every other live clone of the
same supervisor) and force-cancels the unit whenever the dropped clone
still held the handle. -/
theorem c10_clone_drop_cancels (j : JobTask) (w : TaskWorld) :
    j.clone = j ∧
    j.clone.drop w = j.clone.cancel w ∧
    (j.clone.drop w).2.1.is_cancelled = true ∧
    (j.clone.drop w).2.2 = j.handle.isSome ∧
    (j.clone.drop w).2.1.unitAlive =
      (if j.handle.isSome then false else w.unitAlive) :=
  ⟨rfl, rfl, rfl, rfl, rfl⟩

/-- Claim C2: every run of the spawned unit puts exactly one terminal
event on the event channel, as its last event — `Cancelled` when the
cancellation flag is already set at start (the body never runs, so none
of its events appear), otherwise the body's events followed by `Done` on
a normal return or by `Panic` with the fixed description `panic` when the
body panicked; the panic is converted into an event instead of
propagating out of the unit.  The body is assumed well behaved, emitting
no terminal event itself. -/
theorem c2_one_terminal_event {T E : Type} (body : TaskBody T E)
    (flag : Bool)
    (hbody : body.events.all (fun e => !(isTerminal e)) = true) :
    (runUnit flag body).countP (fun e => isTerminal e) = 1 ∧
    (runUnit flag body).getLast? =
      some (if flag then TaskEvent.Cancelled
            else if body.panics then TaskEvent.Panic "panic"
            else TaskEvent.Done) ∧
    runUnit true body = [TaskEvent.Cancelled] ∧
    runUnit false body =
      body.events ++
        [if body.panics then TaskEvent.Panic "panic"
         else TaskEvent.Done] := by
  have hzero : body.events.countP (fun e => isTerminal e) = 0 := by
    rw [List.countP_eq_zero]
    intro a ha
    have h1 := List.all_eq_true.mp hbody a ha
    simp only [Bool.not_eq_eq_eq_not, Bool.not_true] at h1
    simp [h1]
  refine ⟨?_, ?_, rfl, rfl⟩
  · cases flag
    · rw [runUnit, if_neg (by simp), List.countP_append, hzero]
      cases hp : body.panics <;> simp [isTerminal]
    · rw [runUnit, if_pos rfl]
      simp [isTerminal]
  · cases flag
    · rw [runUnit, if_neg (by simp), List.getLast?_concat]
      simp
    · rw [runUnit, if_pos rfl]
      simp

/-- Witness for C2: a concrete body that emits one data and one progress
event and then panics. -/
theorem c2_one_terminal_event_witness :
    (runUnit false
        ({ events := [TaskEvent.Data 3, TaskEvent.Progress (1, 2)],
           panics := true } : TaskBody Nat Nat)).countP
      (fun e => isTerminal e) = 1 ∧
    runUnit true
        ({ events := [TaskEvent.Data 3, TaskEvent.Progress (1, 2)],
           panics := true } : TaskBody Nat Nat) = [TaskEvent.Cancelled] := by
  have h := c2_one_terminal_event
    ({ events := [TaskEvent.Data 3, TaskEvent.Progress (1, 2)],
       panics := true } : TaskBody Nat Nat) false (by rfl)
  exact ⟨h.1, h.2.2.1⟩

/-- Claim C1: when a layer's inbound (resp. outbound) handler succeeds on
a payload, the final outcome of `handleInbound` (resp. `handleOutbound`)
is the upper neighbour's `handleInbound` on the result's data when the
result's direction is `Inbound` and the upper weak link is live, the
lower neighbour's `handleOutbound` on the result's data when the
direction is `Outbound` and a lower neighbour exists, and the handler's
direct result when the needed neighbour is absent (boundary of the
chain). -/
theorem c1_neighbor_routing (f : Nat) (env : Nat → Layer) (i : Nat)
    (req : Option PayLoad) (r : LayerResult) :
    ((env i).handle_inbound req = Except.ok r →
      (∀ j, r.direction = Direction.Inbound →
        (env i).up_layer = some (Weak.live j) →
        handleInbound (f + 1) env i req = handleInbound f env j r.data) ∧
      (∀ j, r.direction = Direction.Outbound →
        (env i).lo_layer = some j →
        handleInbound (f + 1) env i req = handleOutbound f env j r.data) ∧
      (r.direction = Direction.Inbound → (env i).up_layer = none →
        handleInbound (f + 1) env i req = some (Except.ok r)) ∧
      (r.direction = Direction.Outbound → (env i).lo_layer = none →
        handleInbound (f + 1) env i req = some (Except.ok r))) ∧
    ((env i).handle_outbound req = Except.ok r →
      (∀ j, r.direction = Direction.Inbound →
        (env i).up_layer = some (Weak.live j) →
        handleOutbound (f + 1) env i req = handleInbound f env j r.data) ∧
      (∀ j, r.direction = Direction.Outbound →
        (env i).lo_layer = some j →
        handleOutbound (f + 1) env i req = handleOutbound f env j r.data) ∧
      (r.direction = Direction.Inbound → (env i).up_layer = none →
        handleOutbound (f + 1) env i req = some (Except.ok r)) ∧
      (r.direction = Direction.Outbound → (env i).lo_layer = none →
        handleOutbound (f + 1) env i req = some (Except.ok r))) := by
  constructor
  · intro hok
    refine ⟨?_, ?_, ?_, ?_⟩
    · intro j hdir hup
      simp [handleInbound, hok, hdir, hup]
    · intro j hdir hlo
      simp [handleInbound, hok, hdir, hlo]
    · intro hdir hup
      simp [handleInbound, hok, hdir, hup]
    · intro hdir hlo
      simp [handleInbound, hok, hdir, hlo]
  · intro hok
    refine ⟨?_, ?_, ?_, ?_⟩
    · intro j hdir hup
      simp [handleOutbound, hok, hdir, hup]
    · intro j hdir hlo
      simp [handleOutbound, hok, hdir, hlo]
    · intro hdir hup
      simp [handleOutbound, hok, hdir, hup]
    · intro hdir hlo
      simp [handleOutbound, hok, hdir, hlo]

/-- Witness for C1: in the two-node arena `envTwo`, layer 0's inbound
result routes up to layer 1, whose own outbound direction has no matching
neighbour, so its direct result is final. -/
theorem c1_neighbor_routing_witness :
    handleInbound 2 envTwo 0 none =
      handleInbound 1 envTwo 1 (some { data := some "x", ctx := none }) ∧
    handleInbound 1 envTwo 1 (some { data := some "x", ctx := none }) =
      some (Except.ok
        { direction := Direction.Outbound
          data := some { data := some "top", ctx := none } }) ∧
    handleOutbound 1 envTwo 1 none =
      some (Except.ok
        { direction := Direction.Outbound
          data := some { data := some "top", ctx := none } }) := by
  refine ⟨?_, rfl, ?_⟩
  · exact ((c1_neighbor_routing 1 envTwo 0 none
      { direction := Direction.Inbound
        data := some { data := some "x", ctx := none } }).1 rfl).1 1 rfl rfl
  · exact ((c1_neighbor_routing 0 envTwo 1 none
      { direction := Direction.Outbound
        data := some { data := some "top", ctx := none } }).2 rfl).2.2.2
      rfl rfl

/-- Counterexample for C3 as stated: adding L0 then L1 to an empty chain
makes index 0 — L0, the first added — the head, not L1, and the chain's
`handle_inbound` runs L0's inbound handler first: here L0's handler
(direction `Outbound`, no lower neighbour) already yields the final
outcome, which carries L0's tag, not L1's. -/
theorem c3_dispatch_order_cex :
    ((LayerChain.new.add_layer (tagLayer "L0")).add_layer
        (tagLayer "L1")).head ≠ some 1 ∧
    ((LayerChain.new.add_layer (tagLayer "L0")).add_layer
        (tagLayer "L1")).head = some 0 ∧
    tagOf (((LayerChain.new.add_layer (tagLayer "L0")).add_layer
        (tagLayer "L1")).handle_inbound 2 none) = some "L0" ∧
    tagOf (((LayerChain.new.add_layer (tagLayer "L0")).add_layer
        (tagLayer "L1")).handle_inbound 2 none) ≠ some "L1" := by
  refine ⟨by decide, rfl, rfl, by decide⟩

/-- Claim C3 (amended): after adding L0 then L1 to an empty chain, L0
(the first added, index 0) is head and L1 (index 1) is tail, and the
chain's `handle_inbound` dispatches to the head — so it invokes L0's
inbound handler first, not L1's. -/
theorem c3_dispatch_order_amended (l0 l1 : Layer) :
    ((LayerChain.new.add_layer l0).add_layer l1).head = some 0 ∧
    ((LayerChain.new.add_layer l0).add_layer l1).tail = some 1 ∧
    (envOf ((LayerChain.new.add_layer l0).add_layer l1) 0).handle_inbound =
      l0.handle_inbound ∧
    (envOf ((LayerChain.new.add_layer l0).add_layer l1) 1).handle_inbound =
      l1.handle_inbound ∧
    (∀ fuel req,
      ((LayerChain.new.add_layer l0).add_layer l1).handle_inbound fuel req =
        handleInbound fuel
          (envOf ((LayerChain.new.add_layer l0).add_layer l1)) 0 req) :=
  ⟨rfl, rfl, rfl, rfl, fun _ _ => rfl⟩

/-- Claim C4: for every non-empty list of fresh layers added in order to
an empty chain, `head` returns index 0 — the first-added layer, with its
handlers — and `tail` returns the last index — the last-added layer;
and `add_layer` on any chain that already has a tail leaves `head`
unchanged. -/
theorem c4_head_tail_roundtrip (ls : List Layer)
    (hfresh : ∀ l ∈ ls, l.up_layer = none) (hne : ls ≠ []) :
    (addAll LayerChain.new ls).head = some 0 ∧
    (addAll LayerChain.new ls).tail = some (ls.length - 1) ∧
    ((addAll LayerChain.new ls).nodes[0]?).map handlerPair =
      (ls[0]?).map handlerPair ∧
    ((addAll LayerChain.new ls).nodes[ls.length - 1]?).map handlerPair =
      (ls[ls.length - 1]?).map handlerPair ∧
    (∀ (c : LayerChain) (l : Layer), c.tail.isSome = true →
      (c.add_layer l).head = c.head) := by
  have hwf := addAll_wf ls LayerChain.new chainWf_new hfresh
  have hlen := addAll_length LayerChain.new ls
  rcases hwf with ⟨hn, _, _⟩ | ⟨hne2, hh, ht, _, _⟩
  · exfalso
    rw [hn] at hlen
    simp only [List.length_nil, LayerChain.new, Nat.zero_add] at hlen
    exact hne (List.length_eq_zero.mp hlen.symm)
  · refine ⟨hh, ?_, ?_, ?_, add_layer_head⟩
    · rw [ht, hlen]
      simp [LayerChain.new]
    · have h0 := addAll_handlers ls LayerChain.new 0
      simpa [LayerChain.new] using h0
    · have h1 := addAll_handlers ls LayerChain.new (ls.length - 1)
      simpa [LayerChain.new] using h1

/-- Witness for C4 at a concrete two-layer chain. -/
theorem c4_head_tail_roundtrip_witness :
    (addAll LayerChain.new [tagLayer "L0", tagLayer "L1"]).head = some 0 ∧
    (addAll LayerChain.new [tagLayer "L0", tagLayer "L1"]).tail = some 1 := by
  have h := c4_head_tail_roundtrip [tagLayer "L0", tagLayer "L1"]
    (by rintro l hl; fin_cases hl <;> rfl) (by simp)
  exact ⟨h.1, by simpa using h.2.1⟩

/-- Counterexample for C5 as stated: in a two-layer chain the head layer
(index 0) does have an upper neighbour — a live weak link to index 1 —
and the tail layer (index 1) does have a lower neighbour, index 0. -/
theorem c5_boundary_links_cex :
    ((addAll LayerChain.new [tagLayer "A", tagLayer "B"]).nodes[0]?).map
      Layer.up_layer = some (some (Weak.live 1)) ∧
    ((addAll LayerChain.new [tagLayer "A", tagLayer "B"]).nodes[0]?).map
      Layer.up_layer ≠ some none ∧
    ((addAll LayerChain.new [tagLayer "A", tagLayer "B"]).nodes[1]?).map
      Layer.lo_layer = some (some 0) ∧
    ((addAll LayerChain.new [tagLayer "A", tagLayer "B"]).nodes[1]?).map
      Layer.lo_layer ≠ some none := by
  refine ⟨rfl, by decide, rfl, by decide⟩

/-- Claim C5 (amended): in every chain built by a sequence of `add_layer`
calls on an empty chain, the head layer has no lower neighbour and the
tail layer has no upper neighbour (the boundary of the chain is the
mirror of the claim's wording); an empty chain has both head and tail
null. -/
theorem c5_boundary_links_amended (ls : List Layer)
    (hfresh : ∀ l ∈ ls, l.up_layer = none) (hne : ls ≠ []) :
    ((addAll LayerChain.new ls).nodes[0]?).map Layer.lo_layer = some none ∧
    ((addAll LayerChain.new ls).nodes[(addAll LayerChain.new ls).nodes.length
        - 1]?).map Layer.up_layer = some none ∧
    LayerChain.new.head = none ∧ LayerChain.new.tail = none := by
  have hwf := addAll_wf ls LayerChain.new chainWf_new hfresh
  have hlen := addAll_length LayerChain.new ls
  rcases hwf with ⟨hn, _, _⟩ | ⟨hne2, hh, ht, hlo, hu⟩
  · exfalso
    rw [hn] at hlen
    simp only [List.length_nil, LayerChain.new, Nat.zero_add] at hlen
    exact hne (List.length_eq_zero.mp hlen.symm)
  · have hpos : 0 < (addAll LayerChain.new ls).nodes.length :=
      List.length_pos.mpr hne2
    refine ⟨?_, ?_, rfl, rfl⟩
    · have h0 := hlo 0 hpos
      simpa using h0
    · have hlt : (addAll LayerChain.new ls).nodes.length - 1 <
        (addAll LayerChain.new ls).nodes.length := by omega
      have h1 := hu _ hlt
      simpa using h1

/-- Witness for C5 (amended) at a concrete two-layer chain. -/
theorem c5_boundary_links_amended_witness :
    ((addAll LayerChain.new [tagLayer "A", tagLayer "B"]).nodes[0]?).map
      Layer.lo_layer = some none ∧
    LayerChain.new.head = none := by
  have h := c5_boundary_links_amended [tagLayer "A", tagLayer "B"]
    (by rintro l hl; fin_cases hl <;> rfl) (by simp)
  exact ⟨h.1, h.2.2.1⟩

/-- Counterexample for C7 as stated: a handler that fails with message
`boom` is surfaced without that message — the fixed text replaces it —
and the broken-link failure of `handleInbound` is the very same error
value, so the two failure causes are not distinguishable there. -/
theorem c7_error_message_cex :
    errOf (handleInbound 1 envBoom 0 none) ≠ some "boom" ∧
    errOf (handleInbound 1 envBoom 0 none) =
      errOf (handleInbound 1 envExpired 0 none) :=
  ⟨by decide, rfl⟩

/-- Claim C7 (amended): a handler failure is surfaced as the entry
method's fixed handler-error message — `failed to handle inbound
request` from `handleInbound`, `failed to handle outbound request` from
`handleOutbound` — with the handler's own message discarded; an expired
upper weak reference during `Inbound` routing fails with `failed to
handle inbound request` from both methods, so the two failure causes are
distinguishable in `handleOutbound` but not in `handleInbound`. -/
theorem c7_error_surfacing (f : Nat) (env : Nat → Layer) (i : Nat)
    (req : Option PayLoad) :
    (∀ msg, (env i).handle_inbound req = Except.error msg →
      handleInbound (f + 1) env i req =
        some (Except.error "failed to handle inbound request")) ∧
    (∀ msg, (env i).handle_outbound req = Except.error msg →
      handleOutbound (f + 1) env i req =
        some (Except.error "failed to handle outbound request")) ∧
    (∀ r, (env i).handle_inbound req = Except.ok r →
      r.direction = Direction.Inbound →
      (env i).up_layer = some Weak.expired →
      handleInbound (f + 1) env i req =
        some (Except.error "failed to handle inbound request")) ∧
    (∀ r, (env i).handle_outbound req = Except.ok r →
      r.direction = Direction.Inbound →
      (env i).up_layer = some Weak.expired →
      handleOutbound (f + 1) env i req =
        some (Except.error "failed to handle inbound request")) := by
  refine ⟨?_, ?_, ?_, ?_⟩
  · intro msg hmsg
    simp [handleInbound, hmsg]
  · intro msg hmsg
    simp [handleOutbound, hmsg]
  · intro r hok hdir hup
    simp [handleInbound, hok, hdir, hup]
  · intro r hok hdir hup
    simp [handleOutbound, hok, hdir, hup]

/-- Witness for C7 (amended), exercising all four failure shapes on the
concrete arenas `envBoom` and `envExpired`. -/
theorem c7_error_surfacing_witness :
    handleInbound 1 envBoom 0 none =
      some (Except.error "failed to handle inbound request") ∧
    handleOutbound 1 envBoom 0 none =
      some (Except.error "failed to handle outbound request") ∧
    handleInbound 1 envExpired 0 none =
      some (Except.error "failed to handle inbound request") ∧
    handleOutbound 1 envExpired 0 none =
      some (Except.error "failed to handle inbound request") :=
  ⟨(c7_error_surfacing 0 envBoom 0 none).1 "boom" rfl,
   (c7_error_surfacing 0 envBoom 0 none).2.1 "boom" rfl,
   (c7_error_surfacing 0 envExpired 0 none).2.2.1
     { direction := Direction.Inbound, data := none } rfl rfl rfl,
   (c7_error_surfacing 0 envExpired 0 none).2.2.2
     { direction := Direction.Inbound, data := none } rfl rfl rfl⟩

/-- Counterexample for C9 as stated: building with no handlers set does
fail, but with the message `inbound handler not set`, not the claimed
`handler not set`. -/
theorem c9_builder_message_cex :
    buildErr LayerBuilder.new.build = some "inbound handler not set" ∧
    buildErr LayerBuilder.new.build ≠ some "handler not set" :=
  ⟨rfl, by decide⟩

/-- Claim C9 (amended): `build` succeeds exactly when both handlers are
set; when the inbound handler is missing it fails with the construction
error `inbound handler not set`, and when only the outbound handler is
missing with `outbound handler not set` — the source names the missing
handler instead of the spec's bare `handler not set`. -/
theorem c9_builder_requires_handlers (b : LayerBuilder) :
    ((∃ l, b.build = Except.ok l) ↔
      (b.hanlde_inbound.isSome = true ∧ b.handle_outbound.isSome = true)) ∧
    (b.hanlde_inbound = none →
      b.build = Except.error "inbound handler not set") ∧
    (b.hanlde_inbound.isSome = true → b.handle_outbound = none →
      b.build = Except.error "outbound handler not set") := by
  obtain ⟨bi, bo⟩ := b
  rcases bi with _ | fi <;> rcases bo with _ | fo <;>
    simp [LayerBuilder.build]

/-- Witness for C9 (amended): the three shapes at concrete builders. -/
theorem c9_builder_requires_handlers_witness :
    LayerBuilder.new.build = Except.error "inbound handler not set" ∧
    (LayerBuilder.new.with_inbound_fn (fun p => Except.ok
        { direction := Direction.Inbound, data := p })).build =
      Except.error "outbound handler not set" ∧
    ∃ l, ((LayerBuilder.new.with_inbound_fn (fun p => Except.ok
        { direction := Direction.Inbound, data := p })).with_outbound_fn
        (fun p => Except.ok { direction := Direction.Outbound, data := p })).build
        = Except.ok l := by
  refine ⟨?_, ?_, ?_⟩
  · exact (c9_builder_requires_handlers LayerBuilder.new).2.1 rfl
  · exact (c9_builder_requires_handlers _).2.2 rfl rfl
  · exact ((c9_builder_requires_handlers _).1).mpr ⟨rfl, rfl⟩

end Rioc
